import Mathlib

/-!
Verification of the decision core of the `pr-review-threshold` GitHub Action.

The embedded code is `src/action.ts`: the approval aggregator
`uniqueActiveApprovers`, the threshold resolver `requiredReviewThreshold`, and
the decision logic of the orchestrator `run`.  JavaScript strings are modeled
as Lean `String`s with the lexicographic code-unit order, JavaScript numbers as
an inductive `JSNum` (NaN, the two infinities, or an exact rational value), and
the insertion-ordered `Record<string, …>` object as an association list whose
assignment updates an existing key in place and appends a new one.
-/

namespace PRReviewThreshold

/-- `PullRequestReviewState` (the GraphQL enum used by `action.ts`). -/
inductive PullRequestReviewState where
  | APPROVED
  | CHANGES_REQUESTED
  | COMMENTED
  | DISMISSED
  | PENDING
deriving DecidableEq, Repr

/-- `PullRequestReviewDecision` (the GraphQL aggregate decision enum). -/
inductive PullRequestReviewDecision where
  | APPROVED
  | CHANGES_REQUESTED
  | REVIEW_REQUIRED
deriving DecidableEq, Repr

/-- The `author` field of a review: `{ login: string }`. -/
structure ReviewAuthor where
  login : String
deriving DecidableEq, Repr

/-- `PullRequestReview` from `action.ts`. -/
structure PullRequestReview where
  author : ReviewAuthor
  body : String
  state : PullRequestReviewState
  submittedAt : String
deriving DecidableEq, Repr

/-- `PullRequestLabel` from `action.ts`. -/
structure PullRequestLabel where
  name : String
deriving DecidableEq, Repr

/-- JavaScript `<` on strings: lexicographic comparison, character by
character; a proper initial segment is smaller. -/
def jsStrLtAux : List Char → List Char → Bool
  | [], [] => false
  | [], _ :: _ => true
  | _ :: _, [] => false
  | a :: as, b :: bs =>
      if a < b then true else if b < a then false else jsStrLtAux as bs

/-- JavaScript `s < t` for strings. -/
def jsStrLt (s t : String) : Bool :=
  jsStrLtAux s.data t.data

/-- The value stored per reviewer in `latestReviews`:
`{ timestamp: string; state: PullRequestReviewState }`. -/
structure ReviewEntry where
  timestamp : String
  state : PullRequestReviewState
deriving DecidableEq, Repr

/-- The `latestReviews` object: a `Record<string, ReviewEntry>`, i.e. an
insertion-ordered map from author login to the recorded entry. -/
abbrev ReviewRecord := List (String × ReviewEntry)

/-- Reading `latestReviews[k]`. -/
def recordLookup (m : ReviewRecord) (k : String) : Option ReviewEntry :=
  match m with
  | [] => none
  | (k2, v) :: rest => if k2 = k then some v else recordLookup rest k

/-- Assigning `latestReviews[k] = v`: an existing key keeps its position and
gets the new value, a new key is appended at the end (JavaScript object
key-insertion order). -/
def recordSet (m : ReviewRecord) (k : String) (v : ReviewEntry) : ReviewRecord :=
  match m with
  | [] => [(k, v)]
  | (k2, v2) :: rest =>
      if k2 = k then (k2, v) :: rest else (k2, v2) :: recordSet rest k v

/-- `['APPROVED', 'DISMISSED', 'CHANGES_REQUESTED'].includes(state)`. -/
def isOverridingState (s : PullRequestReviewState) : Bool :=
  s == .APPROVED || s == .DISMISSED || s == .CHANGES_REQUESTED

/-- One iteration of the `for` loop of `uniqueActiveApprovers`:
`(previousAuthorReview?.timestamp ?? '') < review.submittedAt` and the
overriding-state test decide whether the entry is written. -/
def processReview (latestReviews : ReviewRecord) (review : PullRequestReview) :
    ReviewRecord :=
  let previousAuthorReview := recordLookup latestReviews review.author.login
  let prevTimestamp :=
    match previousAuthorReview with
    | some p => p.timestamp
    | none => ""
  let isUpdatedReview :=
    jsStrLt prevTimestamp review.submittedAt && isOverridingState review.state
  if previousAuthorReview.isNone || isUpdatedReview then
    recordSet latestReviews review.author.login
      ⟨review.submittedAt, review.state⟩
  else
    latestReviews

/-- `uniqueActiveApprovers` from `action.ts`: fold the reviews through the
loop, then count the recorded entries whose state is `APPROVED`
(`Object.entries(latestReviews).reduce(...)`). -/
def uniqueActiveApprovers (reviews : List PullRequestReview) : Nat :=
  (reviews.foldl processReview []).foldl
    (fun sum p => sum + (if p.2.state = .APPROVED then 1 else 0)) 0

/-- A JavaScript number as this code manipulates one: `NaN`, `Infinity`,
`-Infinity`, or a finite value.  Finite values are modeled exactly as
rationals; the IEEE-754 rounding of overlong literals is not modeled (every
property stated below is insensitive to it). -/
inductive JSNum where
  | nan
  | posInf
  | negInf
  | val (q : ℚ)
deriving DecidableEq, Repr

/-- `isNaN(n)`. -/
def JSNum.isNaN : JSNum → Bool
  | .nan => true
  | _ => false

/-- JavaScript `<` on numbers: any comparison with NaN is false, `-Infinity`
is below and `Infinity` above every other value. -/
def jsNumLt : JSNum → JSNum → Bool
  | .nan, _ => false
  | _, .nan => false
  | .negInf, .negInf => false
  | .negInf, _ => true
  | _, .negInf => false
  | .posInf, _ => false
  | .val _, .posInf => true
  | .val a, .val b => decide (a < b)

/-- `Math.max` on two values: NaN propagates, otherwise the larger argument. -/
def jsMax : JSNum → JSNum → JSNum
  | .nan, _ => .nan
  | _, .nan => .nan
  | .posInf, _ => .posInf
  | _, .posInf => .posInf
  | .negInf, b => b
  | a, .negInf => a
  | .val a, .val b => .val (max a b)

/-- The ECMAScript whitespace and line-terminator characters stripped by
`StringToNumber` before parsing. -/
def isJsWhite (c : Char) : Bool :=
  c.toNat = 9 || c.toNat = 10 || c.toNat = 11 || c.toNat = 12 ||
  c.toNat = 13 || c.toNat = 32 || c.toNat = 160 || c.toNat = 0x1680 ||
  (0x2000 ≤ c.toNat && c.toNat ≤ 0x200A) || c.toNat = 0x2028 ||
  c.toNat = 0x2029 || c.toNat = 0x202F || c.toNat = 0x205F ||
  c.toNat = 0x3000 || c.toNat = 0xFEFF

/-- The numeric value of a hexadecimal digit character, if it is one. -/
def hexDigitVal (c : Char) : Option Nat :=
  if 48 ≤ c.toNat && c.toNat ≤ 57 then some (c.toNat - 48)
  else if 97 ≤ c.toNat && c.toNat ≤ 102 then some (c.toNat - 87)
  else if 65 ≤ c.toNat && c.toNat ≤ 70 then some (c.toNat - 55)
  else none

/-- The value of a digit string in the given base (2, 8 or 16); `none` when a
character is not a digit of that base.  The empty string yields `some 0`, so
callers check non-emptiness themselves. -/
def radixDigitsVal (base : Nat) (l : List Char) : Option Nat :=
  l.foldl
    (fun acc c =>
      match acc, hexDigitVal c with
      | some a, some d => if d < base then some (a * base + d) else none
      | _, _ => none)
    (some 0)

/-- The value of a string of decimal digits (the caller has checked they are
digits). -/
def decDigitsVal (l : List Char) : Nat :=
  l.foldl (fun a c => a * 10 + (c.toNat - 48)) 0

/-- Parse an unsigned decimal mantissa: `digits`, `digits.`, `digits.digits`
or `.digits`; anything else (in particular the empty string and a lone `.`)
fails.  The result is the exact pair `(n, d)` denoting the value
`n / 10 ^ d`: concatenating the integer and fraction digits gives `n`, and
`d` is the number of fraction digits. -/
def parseMantissa (l : List Char) : Option (Nat × Nat) :=
  let intPart := l.takeWhile (fun c => c ≠ '.')
  let rest := l.dropWhile (fun c => c ≠ '.')
  match rest with
  | [] =>
      if !intPart.isEmpty && intPart.all Char.isDigit then
        some (decDigitsVal intPart, 0)
      else none
  | _ :: frac =>
      if frac.contains '.' then none
      else if (!intPart.isEmpty || !frac.isEmpty) && intPart.all Char.isDigit
          && frac.all Char.isDigit then
        some (decDigitsVal (intPart ++ frac), frac.length)
      else none

/-- The exact rational `± (n / 10 ^ d) · 10 ^ e` of a parsed decimal
literal, built with `mkRat` on integers. -/
def decValue (neg : Bool) (n : Nat) (d : Nat) (e : Int) : ℚ :=
  let sign : Int := if neg then -1 else 1
  let shift : Int := e - d
  if 0 ≤ shift then mkRat (sign * n * 10 ^ shift.toNat) 1
  else mkRat (sign * n) (10 ^ (-shift).toNat)

/-- Parse an exponent part (after `e`/`E`): an optional sign and a non-empty
digit string. -/
def parseExponent (l : List Char) : Option Int :=
  match l with
  | '+' :: ds =>
      if !ds.isEmpty && ds.all Char.isDigit then some (decDigitsVal ds)
      else none
  | '-' :: ds =>
      if !ds.isEmpty && ds.all Char.isDigit then
        some (-(decDigitsVal ds : Int))
      else none
  | ds =>
      if !ds.isEmpty && ds.all Char.isDigit then some (decDigitsVal ds)
      else none

/-- Parse an unsigned `StrDecimalLiteral` whose sign (`neg`) was stripped by
the caller: the word `Infinity`, or a mantissa with an optional `e`/`E`
exponent; failure is NaN. -/
def parseDecLiteral (neg : Bool) (l : List Char) : JSNum :=
  if l = "Infinity".data then if neg then .negInf else .posInf
  else
    let mant := l.takeWhile (fun c => c ≠ 'e' && c ≠ 'E')
    let rest := l.dropWhile (fun c => c ≠ 'e' && c ≠ 'E')
    match rest with
    | [] =>
        match parseMantissa mant with
        | some (n, d) => .val (decValue neg n d 0)
        | none => .nan
    | _ :: ex =>
        match parseMantissa mant, parseExponent ex with
        | some (n, d), some e => .val (decValue neg n d e)
        | _, _ => .nan

/-- Parse an optionally signed `StrDecimalLiteral`; failure is NaN. -/
def parseSignedDec (l : List Char) : JSNum :=
  match l with
  | '+' :: rest => parseDecLiteral false rest
  | '-' :: rest => parseDecLiteral true rest
  | _ => parseDecLiteral false l

/-- JavaScript `Number(string)` (ECMAScript `StringToNumber`): trim
whitespace; the empty remainder is `0`; `0x`/`0X`, `0o`/`0O`, `0b`/`0B`
introduce unsigned radix literals (no sign allowed); otherwise an optionally
signed decimal literal or `Infinity`; anything else is NaN.  Finite values are
kept exact as rationals (see `JSNum`). -/
def jsNumber (s : String) : JSNum :=
  let l := ((s.data.dropWhile isJsWhite).reverse.dropWhile isJsWhite).reverse
  match l with
  | [] => .val 0
  | c0 :: c1 :: ds =>
      if c0 = '0' && (c1 = 'x' || c1 = 'X') then
        match radixDigitsVal 16 ds with
        | some n => if ds.isEmpty then .nan else .val (mkRat n 1)
        | none => .nan
      else if c0 = '0' && (c1 = 'o' || c1 = 'O') then
        match radixDigitsVal 8 ds with
        | some n => if ds.isEmpty then .nan else .val (mkRat n 1)
        | none => .nan
      else if c0 = '0' && (c1 = 'b' || c1 = 'B') then
        match radixDigitsVal 2 ds with
        | some n => if ds.isEmpty then .nan else .val (mkRat n 1)
        | none => .nan
      else parseSignedDec l
  | _ => parseSignedDec l

/-- `name.startsWith(labelPrefix)`: a plain prefix test on the character
sequence. -/
def jsStartsWith (name labelPrefix : String) : Bool :=
  labelPrefix.data.isPrefixOf name.data

/-- Drop the first `n` characters of a string. -/
def dropChars (s : String) (n : Nat) : String :=
  ⟨s.data.drop n⟩

/-- The `matchingLabels` local of `requiredReviewThreshold`:
`labels.map(label => label.name).filter(name => name.startsWith(labelPrefix))`. -/
def matchingLabels (labels : List PullRequestLabel) (labelPrefix : String) :
    List String :=
  (labels.map (fun label => label.name)).filter
    (fun name => jsStartsWith name labelPrefix)

/-- The normalization step of `requiredReviewThreshold`:
`(isNaN(num) || num < 1) ? 0 : num`. -/
def normalizeCount (num : JSNum) : JSNum :=
  if num.isNaN || jsNumLt num (.val 1) then JSNum.val 0 else num

/-- The `reviewerCounts` local of `requiredReviewThreshold`: strip the
prefix, convert with `Number`, normalize.

`label.replace(labelPrefix, '')` removes the first occurrence of the prefix;
every label reaching that line passed `name.startsWith(labelPrefix)`, so the
first occurrence is at index 0 and the call drops exactly
`labelPrefix.length` characters (for the empty prefix it drops zero). -/
def reviewerCounts (labels : List PullRequestLabel) (labelPrefix : String) :
    List JSNum :=
  (((matchingLabels labels labelPrefix).map
      (fun label => dropChars label labelPrefix.length)).map
    (fun suffix => jsNumber suffix)).map normalizeCount

/-- `requiredReviewThreshold` from `action.ts`.  The result pairs the
returned number with the list of `core.warning` messages emitted on the way
(exactly one when no label matches, none otherwise; the text is a marker,
the real message interpolates the default).  `Math.max(...reviewerCounts)`
is the fold of the two-argument `Math.max` over the spread arguments,
starting from `-Infinity`. -/
def requiredReviewThreshold (labels : List PullRequestLabel)
    (labelPrefix : String) (defaultReviews : JSNum) : JSNum × List String :=
  if (matchingLabels labels labelPrefix).isEmpty then
    (defaultReviews, ["No label matched; falling back to default"])
  else
    ((reviewerCounts labels labelPrefix).foldl jsMax .negInf, [])

/-- `PullRequestReviewsAndLabels`, flattened: the `nodes` wrappers around the
review and label lists carry no information. -/
structure PullRequestReviewsAndLabels where
  reviews : List PullRequestReview
  labels : List PullRequestLabel
  reviewDecision : PullRequestReviewDecision
deriving DecidableEq, Repr

/-- The observable outcome of `run`: a thrown `Error` (which `main` turns
into `core.setFailed`), an explicit `core.setFailed`, or the final
`core.info` success message. -/
inductive RunOutcome where
  | thrown (msg : String)
  | failed (msg : String)
  | succeeded (msg : String)
deriving DecidableEq, Repr

/-- The decision logic of `run` from the point where the pull request has
been fetched and the configuration read (`labelFormat`, `defaultReviews`):
the `CHANGES_REQUESTED` guard, the threshold resolution, the approval count,
the two warnings, and the final compare.  The second component collects the
`core.warning` messages in emission order. -/
def runDecision (pullRequest : PullRequestReviewsAndLabels)
    (labelFormat : String) (defaultReviews : JSNum) :
    RunOutcome × List String :=
  if pullRequest.reviewDecision = .CHANGES_REQUESTED then
    (.thrown "changes requested state", [])
  else
    let thresholdResult :=
      requiredReviewThreshold pullRequest.labels labelFormat defaultReviews
    let requiredApprovals := thresholdResult.1
    let approveCount := uniqueActiveApprovers pullRequest.reviews
    let warnings :=
      thresholdResult.2 ++
      (if jsNumLt requiredApprovals (.val 1) then
        ["threshold is less than 1"] else []) ++
      (if jsNumLt requiredApprovals defaultReviews then
        ["threshold is less than the configured default"] else [])
    if jsNumLt (.val (approveCount : ℚ)) requiredApprovals then
      (.failed "not enough approvals", warnings)
    else
      (.succeeded "received approvals", warnings)

/-! ### Supporting lemmas -/

theorem jsStrLtAux_irrefl (l : List Char) : jsStrLtAux l l = false := by
  induction l with
  | nil => rfl
  | cons a as ih => simp [jsStrLtAux, ih]

theorem jsStrLt_irrefl (s : String) : jsStrLt s s = false :=
  jsStrLtAux_irrefl s.data

instance : Std.Commutative jsMax :=
  ⟨fun a b => by cases a <;> cases b <;> simp [jsMax, max_comm]⟩

instance : Std.Associative jsMax :=
  ⟨fun a b c => by cases a <;> cases b <;> cases c <;> simp [jsMax, max_assoc]⟩

theorem jsMax_choice (a b : JSNum) (ha : a.isNaN = false)
    (hb : b.isNaN = false) : jsMax a b = a ∨ jsMax a b = b := by
  cases a <;> cases b <;> simp_all [jsMax, JSNum.isNaN] <;>
    exact le_total _ _

theorem jsNumLt_jsMax_right (a b : JSNum) : jsNumLt (jsMax a b) b = false := by
  cases a <;> cases b <;>
    simp [jsMax, jsNumLt, not_lt, le_max_right]

theorem jsNumLt_jsMax_mono (a b z : JSNum) (h : jsNumLt a z = false) :
    jsNumLt (jsMax a b) z = false := by
  cases a <;> cases b <;> cases z <;> simp_all [jsMax, jsNumLt, not_lt]

theorem recordLookup_recordSet_self (m : ReviewRecord) (k : String)
    (v : ReviewEntry) : recordLookup (recordSet m k v) k = some v := by
  induction m with
  | nil => simp [recordSet, recordLookup]
  | cons p rest ih =>
      obtain ⟨k2, v2⟩ := p
      by_cases h : k2 = k <;> simp [recordSet, recordLookup, h, ih]

theorem mem_recordSet (m : ReviewRecord) (k : String) (v : ReviewEntry)
    (q : String × ReviewEntry) (hq : q ∈ recordSet m k v) :
    q ∈ m ∨ q = (k, v) := by
  induction m with
  | nil => simp [recordSet] at hq; simp [hq]
  | cons p rest ih =>
      obtain ⟨k2, v2⟩ := p
      by_cases h : k2 = k
      · simp [recordSet, h] at hq
        rcases hq with hq | hq
        · subst h; simp [hq]
        · exact Or.inl (List.mem_cons_of_mem _ hq)
      · simp [recordSet, h] at hq
        rcases hq with hq | hq
        · simp [hq]
        · rcases ih hq with h2 | h2
          · exact Or.inl (List.mem_cons_of_mem _ h2)
          · exact Or.inr h2

theorem jsMax_isNaN (a b : JSNum) (ha : a.isNaN = false)
    (hb : b.isNaN = false) : (jsMax a b).isNaN = false := by
  cases a <;> cases b <;> simp_all [jsMax, JSNum.isNaN]

theorem foldl_jsMax_mem (l : List JSNum) (acc : JSNum)
    (hacc : acc.isNaN = false) (hl : ∀ x ∈ l, x.isNaN = false) :
    l.foldl jsMax acc = acc ∨ l.foldl jsMax acc ∈ l := by
  induction l generalizing acc with
  | nil => simp
  | cons x xs ih =>
      have hx : x.isNaN = false := hl x (List.mem_cons_self x xs)
      have hxs : ∀ y ∈ xs, y.isNaN = false :=
        fun y hy => hl y (List.mem_cons_of_mem x hy)
      rcases ih (jsMax acc x) (jsMax_isNaN acc x hacc hx) hxs with h | h
      · rw [List.foldl_cons]
        rcases jsMax_choice acc x hacc hx with h2 | h2 <;> rw [h, h2]
        · exact Or.inl rfl
        · exact Or.inr (List.mem_cons_self x xs)
      · exact Or.inr (List.mem_cons_of_mem x (by rw [List.foldl_cons]; exact h))

theorem foldl_jsMax_ge_acc (l : List JSNum) (acc x : JSNum)
    (h : jsNumLt acc x = false) : jsNumLt (l.foldl jsMax acc) x = false := by
  induction l generalizing acc with
  | nil => simpa using h
  | cons y ys ih =>
      rw [List.foldl_cons]
      exact ih (jsMax acc y) (jsNumLt_jsMax_mono acc y x h)

theorem foldl_jsMax_ge (l : List JSNum) (acc x : JSNum) (hx : x ∈ l) :
    jsNumLt (l.foldl jsMax acc) x = false := by
  induction l generalizing acc with
  | nil => cases hx
  | cons y ys ih =>
      rcases List.mem_cons.mp hx with h | h
      · subst h
        rw [List.foldl_cons]
        exact foldl_jsMax_ge_acc ys (jsMax acc x) x (jsNumLt_jsMax_right acc x)
      · exact ih (jsMax acc y) h

theorem normalizeCount_isNaN (num : JSNum) :
    (normalizeCount num).isNaN = false := by
  cases num <;> simp [normalizeCount, jsNumLt, JSNum.isNaN]
  case val q => by_cases h : q < 1 <;> simp [h, JSNum.isNaN]

theorem normalizeCount_nonneg (num : JSNum) :
    jsNumLt (normalizeCount num) (.val 0) = false := by
  cases num <;> simp [normalizeCount, jsNumLt, JSNum.isNaN]
  case val q =>
    by_cases h : q < 1
    · simp [h, jsNumLt]
    · simp [h, jsNumLt]
      linarith [not_lt.mp h]

/-- Erasing one reviewer's entries from the record (used to express that a
reviewer contributes nothing). -/
def eraseLogin (r : String) (m : ReviewRecord) : ReviewRecord :=
  m.filter (fun p => p.1 != r)

theorem recordLookup_eraseLogin (m : ReviewRecord) (r k : String)
    (hk : k ≠ r) : recordLookup (eraseLogin r m) k = recordLookup m k := by
  induction m with
  | nil => rfl
  | cons p rest ih =>
      obtain ⟨k2, v2⟩ := p
      by_cases h2 : k2 = k
      · subst h2
        simp [eraseLogin, List.filter_cons, recordLookup, hk]
      · by_cases h3 : k2 = r
        · subst h3
          simpa [eraseLogin, List.filter_cons, recordLookup, h2] using ih
        · simpa [eraseLogin, List.filter_cons, recordLookup, h2, h3] using ih

theorem eraseLogin_recordSet_ne (m : ReviewRecord) (r k : String)
    (v : ReviewEntry) (hk : k ≠ r) :
    eraseLogin r (recordSet m k v) = recordSet (eraseLogin r m) k v := by
  induction m with
  | nil => simp [eraseLogin, recordSet, List.filter_cons, hk]
  | cons p rest ih =>
      obtain ⟨k2, v2⟩ := p
      by_cases h2 : k2 = k
      · subst h2
        simp [eraseLogin, recordSet, List.filter_cons, hk]
      · by_cases h3 : k2 = r
        · subst h3
          simpa [eraseLogin, recordSet, List.filter_cons, h2, Ne.symm hk]
            using ih
        · simpa [eraseLogin, recordSet, List.filter_cons, h2, h3] using ih

theorem eraseLogin_recordSet_self (m : ReviewRecord) (r : String)
    (v : ReviewEntry) : eraseLogin r (recordSet m r v) = eraseLogin r m := by
  induction m with
  | nil => simp [eraseLogin, recordSet, List.filter_cons]
  | cons p rest ih =>
      obtain ⟨k2, v2⟩ := p
      by_cases h2 : k2 = r
      · subst h2
        simp [eraseLogin, recordSet, List.filter_cons]
      · simpa [eraseLogin, recordSet, List.filter_cons, h2] using ih

theorem processReview_eraseLogin_ne (m : ReviewRecord)
    (review : PullRequestReview) (r : String) (h : review.author.login ≠ r) :
    processReview (eraseLogin r m) review =
      eraseLogin r (processReview m review) := by
  cases hl : recordLookup m review.author.login with
  | none =>
      simp [processReview, recordLookup_eraseLogin m r review.author.login h,
        hl, eraseLogin_recordSet_ne m r review.author.login _ h]
  | some p =>
      simp only [processReview,
        recordLookup_eraseLogin m r review.author.login h, hl]
      by_cases hc : (jsStrLt p.timestamp review.submittedAt &&
          isOverridingState review.state) = true
      · simp [hc, eraseLogin_recordSet_ne m r review.author.login _ h]
      · simp [hc]

theorem processReview_cases (m : ReviewRecord) (e : PullRequestReview) :
    processReview m e = m ∨
      processReview m e =
        recordSet m e.author.login ⟨e.submittedAt, e.state⟩ := by
  simp only [processReview]
  split
  · exact Or.inr rfl
  · exact Or.inl rfl

theorem processReview_eraseLogin_self (m : ReviewRecord)
    (review : PullRequestReview) (r : String) (h : review.author.login = r) :
    eraseLogin r (processReview m review) = eraseLogin r m := by
  rcases processReview_cases m review with h2 | h2 <;> rw [h2]
  rw [h, eraseLogin_recordSet_self]

theorem foldl_processReview_filter (reviews : List PullRequestReview)
    (m : ReviewRecord) (r : String) :
    List.foldl processReview (eraseLogin r m)
        (reviews.filter (fun e => e.author.login != r)) =
      eraseLogin r (List.foldl processReview m reviews) := by
  induction reviews generalizing m with
  | nil => rfl
  | cons e evs ih =>
      by_cases h : e.author.login = r
      · rw [List.filter_cons_of_neg (by simp [h]), List.foldl_cons, ← ih,
          processReview_eraseLogin_self m e r h]
      · rw [List.filter_cons_of_pos (by simp [h]), List.foldl_cons,
          List.foldl_cons, processReview_eraseLogin_ne m e r h, ih]

theorem mem_processReview (m : ReviewRecord) (e : PullRequestReview)
    (q : String × ReviewEntry) (hq : q ∈ processReview m e) :
    q ∈ m ∨ q = (e.author.login, ⟨e.submittedAt, e.state⟩) := by
  rcases processReview_cases m e with h | h <;> rw [h] at hq
  · exact Or.inl hq
  · exact mem_recordSet m e.author.login _ q hq

theorem mem_foldl_processReview (reviews : List PullRequestReview)
    (m : ReviewRecord) (q : String × ReviewEntry)
    (hq : q ∈ List.foldl processReview m reviews) :
    q ∈ m ∨ ∃ e ∈ reviews, e.author.login = q.1 ∧
      q.2 = ⟨e.submittedAt, e.state⟩ := by
  induction reviews generalizing m with
  | nil => exact Or.inl hq
  | cons e evs ih =>
      rw [List.foldl_cons] at hq
      rcases ih (processReview m e) hq with h | h
      · rcases mem_processReview m e q h with h2 | h2
        · exact Or.inl h2
        · subst h2
          exact Or.inr ⟨e, List.mem_cons_self e evs, rfl, rfl⟩
      · obtain ⟨e2, he2, hl, hv⟩ := h
        exact Or.inr ⟨e2, List.mem_cons_of_mem e he2, hl, hv⟩

theorem foldl_count_eq_countP (m : ReviewRecord) (n : Nat) :
    m.foldl (fun sum p => sum + (if p.2.state = .APPROVED then 1 else 0)) n =
      n + m.countP (fun p => p.2.state == .APPROVED) := by
  induction m generalizing n with
  | nil => simp
  | cons p rest ih =>
      rw [List.foldl_cons, ih, List.countP_cons]
      by_cases h : p.2.state = .APPROVED <;> simp [h] <;> omega

theorem countP_filter_split (P Q : String × ReviewEntry → Bool)
    (l : ReviewRecord) :
    l.countP P =
      (l.filter Q).countP P + (l.filter (fun a => !Q a)).countP P := by
  induction l with
  | nil => simp
  | cons a l ih =>
      by_cases hq : Q a <;> by_cases hp : P a <;>
        simp [List.filter_cons, List.countP_cons, hq, hp, ih] <;> omega

theorem jsMax_negInf (b : JSNum) : jsMax .negInf b = b := by
  cases b <;> rfl

theorem foldl_jsMax_negInf_ge (l : List JSNum) (z : JSNum) (hne : l ≠ [])
    (h : ∀ x ∈ l, jsNumLt x z = false) :
    jsNumLt (l.foldl jsMax .negInf) z = false := by
  cases l with
  | nil => exact absurd rfl hne
  | cons x rest =>
      rw [List.foldl_cons, jsMax_negInf]
      exact foldl_jsMax_ge_acc rest x z (h x (List.mem_cons_self x rest))

theorem matchingLabels_isEmpty_false (labels : List PullRequestLabel)
    (labelPrefix : String)
    (h : ∃ l ∈ labels, jsStartsWith l.name labelPrefix = true) :
    (matchingLabels labels labelPrefix).isEmpty = false := by
  obtain ⟨l, hl, hs⟩ := h
  refine List.isEmpty_eq_false.mpr (List.ne_nil_of_mem (a := l.name) ?_)
  exact List.mem_filter.mpr ⟨List.mem_map_of_mem _ hl, hs⟩

theorem reviewerCounts_not_nan (labels : List PullRequestLabel)
    (labelPrefix : String) :
    ∀ v ∈ reviewerCounts labels labelPrefix, v.isNaN = false := by
  intro v hv
  unfold reviewerCounts at hv
  obtain ⟨y, _, rfl⟩ := List.mem_map.mp hv
  exact normalizeCount_isNaN y

theorem foldl_jsMax_negInf_mem (l : List JSNum) (hne : l ≠ [])
    (h : ∀ x ∈ l, x.isNaN = false) : l.foldl jsMax .negInf ∈ l := by
  cases l with
  | nil => exact absurd rfl hne
  | cons x rest =>
      rw [List.foldl_cons, jsMax_negInf]
      rcases foldl_jsMax_mem rest x (h x (List.mem_cons_self x rest))
        (fun y hy => h y (List.mem_cons_of_mem x hy)) with h2 | h2
      · rw [h2]
        exact List.mem_cons_self x rest
      · exact List.mem_cons_of_mem x h2

theorem foldl_jsMax_all_zero (l : List JSNum) (h : ∀ v ∈ l, v = .val 0) :
    l.foldl jsMax (.val 0) = .val 0 := by
  induction l with
  | nil => rfl
  | cons x rest ih =>
      rw [List.foldl_cons, h x (List.mem_cons_self x rest)]
      have : jsMax (.val 0) (.val 0) = .val 0 := by simp [jsMax]
      rw [this]
      exact ih (fun v hv => h v (List.mem_cons_of_mem x hv))

theorem matchingLabels_perm (labels labels2 : List PullRequestLabel)
    (labelPrefix : String) (p : labels.Perm labels2) :
    (matchingLabels labels labelPrefix).Perm
      (matchingLabels labels2 labelPrefix) :=
  List.Perm.filter _ (List.Perm.map _ p)

theorem reviewerCounts_perm (labels labels2 : List PullRequestLabel)
    (labelPrefix : String) (p : labels.Perm labels2) :
    (reviewerCounts labels labelPrefix).Perm
      (reviewerCounts labels2 labelPrefix) :=
  List.Perm.map _ (List.Perm.map _
    (List.Perm.map _ (matchingLabels_perm labels labels2 labelPrefix p)))

/-! ### The claims -/

/-- C9: `uniqueActiveApprovers` is total — it is a plain Lean function,
defined on every list of review events (timestamps are arbitrary strings, no
chronological assumption) — its result is a non-negative integer, and the
empty sequence yields 0. -/
theorem claim_C9_total_nonneg :
    uniqueActiveApprovers [] = 0 ∧
      ∀ reviews : List PullRequestReview, 0 ≤ uniqueActiveApprovers reviews :=
  ⟨rfl, fun _ => Nat.zero_le _⟩

/-- C7: when no label name starts with the prefix (the empty list included),
`requiredReviewThreshold` returns `defaultThreshold` unchanged and emits the
warning; in particular on `([], "required-reviews/", 100)` it returns 100
with the warning. -/
theorem claim_C7_no_match_returns_default :
    (∀ (labels : List PullRequestLabel) (labelPrefix : String)
        (defaultReviews : JSNum),
      (∀ l ∈ labels, jsStartsWith l.name labelPrefix = false) →
        requiredReviewThreshold labels labelPrefix defaultReviews =
          (defaultReviews, ["No label matched; falling back to default"])) ∧
    requiredReviewThreshold [] "required-reviews/" (.val 100) =
      (.val 100, ["No label matched; falling back to default"]) := by
  constructor
  · intro labels labelPrefix defaultReviews h
    have hm : matchingLabels labels labelPrefix = [] := by
      unfold matchingLabels
      rw [List.filter_eq_nil_iff]
      intro a ha
      obtain ⟨l, hl, rfl⟩ := List.mem_map.mp ha
      simp [h l hl]
    simp [requiredReviewThreshold, hm]
  · rfl

/-- C10: with at least one matching label the result of
`requiredReviewThreshold` is independent of the supplied default (for any
two defaults the values agree), it is never negative, and
`([required-reviews/3], "required-reviews/", -1000)` yields 3. -/
theorem claim_C10_default_independent :
    (∀ (labels : List PullRequestLabel) (labelPrefix : String)
        (d1 d2 : JSNum),
      (∃ l ∈ labels, jsStartsWith l.name labelPrefix = true) →
        (requiredReviewThreshold labels labelPrefix d1).1 =
            (requiredReviewThreshold labels labelPrefix d2).1 ∧
          jsNumLt (requiredReviewThreshold labels labelPrefix d1).1
            (.val 0) = false) ∧
    requiredReviewThreshold [⟨"required-reviews/3"⟩] "required-reviews/"
      (.val (-1000)) = (.val 3, []) := by
  constructor
  · intro labels labelPrefix d1 d2 h
    have hm := matchingLabels_isEmpty_false labels labelPrefix h
    have hnil : matchingLabels labels labelPrefix ≠ [] :=
      List.isEmpty_eq_false.mp hm
    constructor
    · simp [requiredReviewThreshold, hm]
    · have hval : (requiredReviewThreshold labels labelPrefix d1).1 =
          (reviewerCounts labels labelPrefix).foldl jsMax .negInf := by
        simp [requiredReviewThreshold, hm]
      rw [hval]
      refine foldl_jsMax_negInf_ge _ _ ?_ ?_
      · unfold reviewerCounts
        simpa using hnil
      · intro x hx
        unfold reviewerCounts at hx
        obtain ⟨y, _, rfl⟩ := List.mem_map.mp hx
        exact normalizeCount_nonneg y
  · decide

/-- C7 witness: the general part of C7 applied to one non-matching label. -/
theorem claim_C7_witness :
    requiredReviewThreshold [⟨"foo"⟩] "required-reviews/" (.val 100) =
      (.val 100, ["No label matched; falling back to default"]) :=
  claim_C7_no_match_returns_default.1 [⟨"foo"⟩] "required-reviews/"
    (.val 100) (by decide)

/-- C10 witness: the general part of C10 applied to one matching label and
the defaults −1000 and 100. -/
theorem claim_C10_witness :
    (requiredReviewThreshold [⟨"required-reviews/3"⟩] "required-reviews/"
        (.val (-1000))).1 =
      (requiredReviewThreshold [⟨"required-reviews/3"⟩] "required-reviews/"
        (.val 100)).1 ∧
    jsNumLt (requiredReviewThreshold [⟨"required-reviews/3"⟩]
        "required-reviews/" (.val (-1000))).1 (.val 0) = false :=
  claim_C10_default_independent.1 [⟨"required-reviews/3"⟩]
    "required-reviews/" (.val (-1000)) (.val 100)
    ⟨⟨"required-reviews/3"⟩, by decide, by decide⟩

/-- C5 counterexample: the suffix `2.5` of the matching label
`required-reviews/2.5` is not a valid integer, yet it does not contribute 0:
`Number("2.5")` is 2.5, which is not NaN and not below 1, so the resolver
returns 2.5 — neither 0 nor the default 7. -/
theorem claim_C5_counterexample :
    (requiredReviewThreshold [⟨"required-reviews/2.5"⟩] "required-reviews/"
        (.val 7)).1 = .val (mkRat 5 2) ∧
      JSNum.val (mkRat 5 2) ≠ .val 0 ∧ JSNum.val (mkRat 5 2) ≠ .val 7 := by
  decide

/-- C5 (amended): every matching label whose suffix parses to NaN under the
JavaScript `Number` conversion, or parses to a value less than 1,
contributes the normalized value 0 — never the configured default.  A label
exactly equal to the prefix has the empty suffix, which parses to 0 (below
1), and suffixes `-3` and `abc` contribute 0; when every matching label
contributes 0 the function returns 0, even if 0 is below
`defaultThreshold`. -/
theorem claim_C5_invalid_contributes_zero :
    (∀ num : JSNum, num.isNaN = true ∨ jsNumLt num (.val 1) = true →
      normalizeCount num = .val 0) ∧
    normalizeCount (jsNumber "") = .val 0 ∧
    normalizeCount (jsNumber "-3") = .val 0 ∧
    normalizeCount (jsNumber "abc") = .val 0 ∧
    (∀ (labels : List PullRequestLabel) (labelPrefix : String)
        (defaultReviews : JSNum),
      (∃ l ∈ labels, jsStartsWith l.name labelPrefix = true) →
        (∀ v ∈ reviewerCounts labels labelPrefix, v = .val 0) →
        (requiredReviewThreshold labels labelPrefix defaultReviews).1 =
          .val 0) ∧
    (requiredReviewThreshold [⟨"required-reviews/"⟩, ⟨"required-reviews/-3"⟩,
        ⟨"required-reviews/abc"⟩] "required-reviews/" (.val 5)).1 =
      .val 0 := by
  refine ⟨?_, by decide, by decide, by decide, ?_, by decide⟩
  · intro num h
    rcases h with h | h <;> simp [normalizeCount, h]
  · intro labels labelPrefix defaultReviews hmatch hzero
    have hm := matchingLabels_isEmpty_false labels labelPrefix hmatch
    have hnil : reviewerCounts labels labelPrefix ≠ [] := by
      unfold reviewerCounts
      simpa using List.isEmpty_eq_false.mp hm
    have hval : (requiredReviewThreshold labels labelPrefix defaultReviews).1 =
        (reviewerCounts labels labelPrefix).foldl jsMax .negInf := by
      simp [requiredReviewThreshold, hm]
    rw [hval]
    obtain ⟨x, rest, hx⟩ : ∃ x rest, reviewerCounts labels labelPrefix =
        x :: rest := by
      cases h : reviewerCounts labels labelPrefix with
      | nil => exact absurd h hnil
      | cons x rest => exact ⟨x, rest, rfl⟩
    rw [hx, List.foldl_cons, jsMax_negInf,
      hzero x (by rw [hx]; exact List.mem_cons_self x rest)]
    exact foldl_jsMax_all_zero rest
      (fun v hv => hzero v (by rw [hx]; exact List.mem_cons_of_mem x hv))

/-- C5 witness: the amended normalization rule applied to NaN and to the
all-invalid three-label instance. -/
theorem claim_C5_witness :
    normalizeCount JSNum.nan = .val 0 ∧
    (requiredReviewThreshold [⟨"required-reviews/abc"⟩] "required-reviews/"
        (.val 5)).1 = .val 0 :=
  ⟨claim_C5_invalid_contributes_zero.1 .nan (Or.inl rfl),
    claim_C5_invalid_contributes_zero.2.2.2.2.1 [⟨"required-reviews/abc"⟩]
      "required-reviews/" (.val 5)
      ⟨⟨"required-reviews/abc"⟩, by decide, by decide⟩ (by decide)⟩

/-- C6: with at least one matching label, `requiredReviewThreshold` returns
the maximum of the normalized values of the matching labels: the result is
one of those values and is not below any of them (so it is never their sum
and never blindly the first match), the result is invariant under
reordering of the labels, and the three-label example yields 10. -/
theorem claim_C6_maximum :
    (∀ (labels : List PullRequestLabel) (labelPrefix : String)
        (defaultReviews : JSNum),
      (∃ l ∈ labels, jsStartsWith l.name labelPrefix = true) →
        (requiredReviewThreshold labels labelPrefix defaultReviews).1 ∈
            reviewerCounts labels labelPrefix ∧
          ∀ v ∈ reviewerCounts labels labelPrefix,
            jsNumLt (requiredReviewThreshold labels labelPrefix
              defaultReviews).1 v = false) ∧
    (∀ (labels labels2 : List PullRequestLabel) (labelPrefix : String)
        (defaultReviews : JSNum), labels.Perm labels2 →
      requiredReviewThreshold labels labelPrefix defaultReviews =
        requiredReviewThreshold labels2 labelPrefix defaultReviews) ∧
    requiredReviewThreshold [⟨"required-reviews/2"⟩, ⟨"required-reviews/10"⟩,
        ⟨"required-reviews/4"⟩] "required-reviews/" (.val (-1000)) =
      (.val 10, []) := by
  refine ⟨?_, ?_, by decide⟩
  · intro labels labelPrefix defaultReviews h
    have hm := matchingLabels_isEmpty_false labels labelPrefix h
    have hnil : reviewerCounts labels labelPrefix ≠ [] := by
      unfold reviewerCounts
      simpa using List.isEmpty_eq_false.mp hm
    have hval : (requiredReviewThreshold labels labelPrefix defaultReviews).1 =
        (reviewerCounts labels labelPrefix).foldl jsMax .negInf := by
      simp [requiredReviewThreshold, hm]
    rw [hval]
    exact ⟨foldl_jsMax_negInf_mem _ hnil
        (reviewerCounts_not_nan labels labelPrefix),
      fun v hv => foldl_jsMax_ge _ _ v hv⟩
  · intro labels labels2 labelPrefix defaultReviews p
    have hp := matchingLabels_perm labels labels2 labelPrefix p
    by_cases hm : matchingLabels labels labelPrefix = []
    · have hm2 : matchingLabels labels2 labelPrefix = [] := by
        rw [hm] at hp
        exact hp.symm.eq_nil
      simp [requiredReviewThreshold, hm, hm2]
    · have hm2 : matchingLabels labels2 labelPrefix ≠ [] := by
        intro h2
        rw [h2] at hp
        exact hm hp.eq_nil
      have h1 := List.isEmpty_eq_false.mpr hm
      have h2 := List.isEmpty_eq_false.mpr hm2
      simp only [requiredReviewThreshold, h1, h2, Bool.false_eq_true,
        if_false]
      exact congrArg (fun z => (z, ([] : List String)))
        (List.Perm.foldl_op_eq
          (reviewerCounts_perm labels labels2 labelPrefix p))

/-- C6 witness: the maximum characterization at one matching label, and
permutation invariance on a two-label swap. -/
theorem claim_C6_witness :
    (requiredReviewThreshold [⟨"required-reviews/2"⟩] "required-reviews/"
        (.val 5)).1 ∈
      reviewerCounts [⟨"required-reviews/2"⟩] "required-reviews/" ∧
    requiredReviewThreshold [⟨"pre1"⟩, ⟨"pre2"⟩] "pre" (.val 1) =
      requiredReviewThreshold [⟨"pre2"⟩, ⟨"pre1"⟩] "pre" (.val 1) :=
  ⟨(claim_C6_maximum.1 [⟨"required-reviews/2"⟩] "required-reviews/" (.val 5)
      ⟨⟨"required-reviews/2"⟩, by decide, by decide⟩).1,
    claim_C6_maximum.2.1 [⟨"pre1"⟩, ⟨"pre2"⟩] [⟨"pre2"⟩, ⟨"pre1"⟩] "pre"
      (.val 1) (by decide)⟩

/-- C1: in `uniqueActiveApprovers` a reviewer's recorded state changes only
through overriding events: a `COMMENTED` or `PENDING` event never replaces
an already-recorded entry, while an `APPROVED`, `DISMISSED` or
`CHANGES_REQUESTED` event with a strictly greater timestamp does replace
it; and the claim's three concrete scenarios (t1<t2<t3<t4<t5 as strings)
evaluate to 2, 1 and 2. -/
theorem claim_C1_latest_overriding :
    (∀ (m : ReviewRecord) (review : PullRequestReview) (prev : ReviewEntry),
      recordLookup m review.author.login = some prev →
      (review.state = .COMMENTED ∨ review.state = .PENDING) →
      processReview m review = m) ∧
    (∀ (m : ReviewRecord) (review : PullRequestReview) (prev : ReviewEntry),
      recordLookup m review.author.login = some prev →
      isOverridingState review.state = true →
      jsStrLt prev.timestamp review.submittedAt = true →
      recordLookup (processReview m review) review.author.login =
        some ⟨review.submittedAt, review.state⟩) ∧
    uniqueActiveApprovers [⟨⟨"A"⟩, "", .CHANGES_REQUESTED, "t1"⟩,
      ⟨⟨"B"⟩, "", .APPROVED, "t2"⟩, ⟨⟨"A"⟩, "", .COMMENTED, "t3"⟩,
      ⟨⟨"A"⟩, "", .APPROVED, "t4"⟩] = 2 ∧
    uniqueActiveApprovers [⟨⟨"A"⟩, "", .CHANGES_REQUESTED, "t1"⟩,
      ⟨⟨"B"⟩, "", .APPROVED, "t2"⟩, ⟨⟨"A"⟩, "", .COMMENTED, "t3"⟩,
      ⟨⟨"A"⟩, "", .APPROVED, "t4"⟩,
      ⟨⟨"B"⟩, "", .CHANGES_REQUESTED, "t5"⟩] = 1 ∧
    uniqueActiveApprovers [⟨⟨"A"⟩, "", .CHANGES_REQUESTED, "t1"⟩,
      ⟨⟨"B"⟩, "", .APPROVED, "t2"⟩, ⟨⟨"A"⟩, "", .COMMENTED, "t3"⟩,
      ⟨⟨"A"⟩, "", .APPROVED, "t4"⟩, ⟨⟨"A"⟩, "", .PENDING, "t5"⟩] = 2 := by
  refine ⟨?_, ?_, by decide, by decide, by decide⟩
  · intro m review prev hl hs
    have hov : isOverridingState review.state = false := by
      rcases hs with h | h <;> simp [isOverridingState, h]
    simp [processReview, hl, hov]
  · intro m review prev hl hov hlt
    simp [processReview, hl, hov, hlt, recordLookup_recordSet_self]

/-- C1 witness: the two replacement rules at concrete inputs. -/
theorem claim_C1_witness :
    processReview [("A", ⟨"t1", .APPROVED⟩)] ⟨⟨"A"⟩, "", .COMMENTED, "t2"⟩ =
      [("A", ⟨"t1", .APPROVED⟩)] ∧
    recordLookup (processReview [("A", ⟨"t1", .APPROVED⟩)]
        ⟨⟨"A"⟩, "", .DISMISSED, "t2"⟩) "A" = some ⟨"t2", .DISMISSED⟩ :=
  ⟨claim_C1_latest_overriding.1 [("A", ⟨"t1", .APPROVED⟩)]
      ⟨⟨"A"⟩, "", .COMMENTED, "t2"⟩ ⟨"t1", .APPROVED⟩ (by decide)
      (Or.inl rfl),
    claim_C1_latest_overriding.2.1 [("A", ⟨"t1", .APPROVED⟩)]
      ⟨⟨"A"⟩, "", .DISMISSED, "t2"⟩ ⟨"t1", .APPROVED⟩ (by decide) (by decide)
      (by decide)⟩

/-- C2 counterexample: a `COMMENTED` event for a reviewer with no recorded
entry does create an entry (the loop records any first event), and for the
input `[A: COMMENTED@t2, A: APPROVED@t1]` (the approval's timestamp earlier
than the comment's) the recorded comment blocks the approval, so the count
is 0 — not 1 as the claim asserts. -/
theorem claim_C2_counterexample :
    processReview [] ⟨⟨"A"⟩, "", .COMMENTED, "t2"⟩ =
      [("A", ⟨"t2", .COMMENTED⟩)] ∧
    uniqueActiveApprovers [⟨⟨"A"⟩, "", .COMMENTED, "t2"⟩,
      ⟨⟨"A"⟩, "", .APPROVED, "t1"⟩] = 0 := by
  decide

/-- C2 (amended): a `COMMENTED` or `PENDING` event for a reviewer with no
recorded entry DOES create an entry recording that state (the first event of
a reviewer is always recorded, whatever its state), so a recorded effective
state can be `COMMENTED` or `PENDING`; consequently, for a reviewer whose
input is a `COMMENTED` (or `PENDING`) event followed by an `APPROVED` event
with an equal or earlier timestamp, the `APPROVED` event does not override
the recorded entry and the reviewer does not count as approved. -/
theorem claim_C2_first_event_recorded :
    (∀ (m : ReviewRecord) (review : PullRequestReview),
      recordLookup m review.author.login = none →
        processReview m review =
          recordSet m review.author.login
            ⟨review.submittedAt, review.state⟩) ∧
    (∀ (login b1 b2 t1 t2 : String) (s : PullRequestReviewState),
      (s = .COMMENTED ∨ s = .PENDING) → jsStrLt t1 t2 = false →
        uniqueActiveApprovers [⟨⟨login⟩, b1, s, t1⟩,
          ⟨⟨login⟩, b2, .APPROVED, t2⟩] = 0) := by
  constructor
  · intro m review hl
    simp [processReview, hl]
  · intro login b1 b2 t1 t2 s hs hlt
    rcases hs with rfl | rfl <;>
      simp [uniqueActiveApprovers, processReview, recordLookup, recordSet,
        isOverridingState, hlt]

/-- C2 witness: the amended rules at concrete inputs (a `PENDING` first
event is recorded; a comment at `t2` blocks an approval at the same `t2`). -/
theorem claim_C2_witness :
    processReview [] ⟨⟨"B"⟩, "", .PENDING, "t1"⟩ =
      recordSet [] "B" ⟨"t1", .PENDING⟩ ∧
    uniqueActiveApprovers [⟨⟨"A"⟩, "x", .COMMENTED, "t2"⟩,
      ⟨⟨"A"⟩, "y", .APPROVED, "t2"⟩] = 0 :=
  ⟨claim_C2_first_event_recorded.1 [] ⟨⟨"B"⟩, "", .PENDING, "t1"⟩ rfl,
    claim_C2_first_event_recorded.2 "A" "x" "y" "t2" "t2" .COMMENTED
      (Or.inl rfl) (by decide)⟩

/-- C3: a reviewer all of whose events are `COMMENTED`/`PENDING` contributes
0 to `uniqueActiveApprovers`, regardless of how many such events there are:
removing every event of that reviewer leaves the count unchanged. -/
theorem claim_C3_comment_only_contributes_zero
    (reviews : List PullRequestReview) (r : String)
    (h : ∀ e ∈ reviews, e.author.login = r →
      e.state = .COMMENTED ∨ e.state = .PENDING) :
    uniqueActiveApprovers reviews =
      uniqueActiveApprovers
        (reviews.filter (fun e => e.author.login != r)) := by
  unfold uniqueActiveApprovers
  rw [foldl_count_eq_countP, foldl_count_eq_countP, Nat.zero_add,
    Nat.zero_add]
  have hfilter : List.foldl processReview []
      (reviews.filter (fun e => e.author.login != r)) =
      eraseLogin r (List.foldl processReview [] reviews) :=
    foldl_processReview_filter reviews [] r
  rw [hfilter]
  have hsplit := countP_filter_split (fun p => p.2.state == .APPROVED)
    (fun p => p.1 != r) (List.foldl processReview [] reviews)
  have hzero : ((List.foldl processReview [] reviews).filter
      (fun p => !(p.1 != r))).countP
        (fun p => p.2.state == .APPROVED) = 0 := by
    rw [List.countP_eq_zero]
    intro q hq
    obtain ⟨hqmem, hqkey⟩ := List.mem_filter.mp hq
    rcases mem_foldl_processReview reviews [] q hqmem with h2 | h2
    · cases h2
    · obtain ⟨e, he, hlogin, hstate⟩ := h2
      have hkey : q.1 = r := by simpa using hqkey
      rcases h e he (by rw [hlogin, hkey]) with h3 | h3 <;>
        simp [hstate, h3]
  simp only [eraseLogin]
  rw [hsplit, hzero]
  omega

/-- C3 witness: reviewer `A` has only a comment and a pending review;
dropping both events leaves the count unchanged. -/
theorem claim_C3_witness :
    uniqueActiveApprovers [⟨⟨"A"⟩, "", .COMMENTED, "t1"⟩,
        ⟨⟨"B"⟩, "", .APPROVED, "t2"⟩, ⟨⟨"A"⟩, "", .PENDING, "t3"⟩] =
      uniqueActiveApprovers (([⟨⟨"A"⟩, "", .COMMENTED, "t1"⟩,
        ⟨⟨"B"⟩, "", .APPROVED, "t2"⟩, ⟨⟨"A"⟩, "", .PENDING, "t3"⟩] :
          List PullRequestReview).filter
        (fun e => e.author.login != "A")) :=
  claim_C3_comment_only_contributes_zero _ "A" (by decide)

/-- C4 counterexample: two overriding events for reviewer `A` with the same
timestamp `t1`: the recorded state after processing both is that of the
FIRST event (`APPROVED`), not of the one appearing later in the sequence
(`CHANGES_REQUESTED`), contradicting the claim's "the later one in input
order wins". -/
theorem claim_C4_counterexample :
    recordLookup (List.foldl processReview []
        [⟨⟨"A"⟩, "", .APPROVED, "t1"⟩,
          ⟨⟨"A"⟩, "", .CHANGES_REQUESTED, "t1"⟩]) "A" =
      some ⟨"t1", .APPROVED⟩ ∧
    (⟨"t1", PullRequestReviewState.APPROVED⟩ : ReviewEntry) ≠
      ⟨"t1", .CHANGES_REQUESTED⟩ := by
  decide

/-- C4 (amended): if two overriding events for the same reviewer carry
identical timestamps, the EARLIER one in input order wins: the strict
greater-than comparison means the equal timestamp does not trigger
replacement, so the first-seen entry of the tie is kept. -/
theorem claim_C4_tie_first_wins
    (login b1 b2 t : String) (s1 s2 : PullRequestReviewState)
    (h1 : isOverridingState s1 = true) (h2 : isOverridingState s2 = true) :
    List.foldl processReview []
        [⟨⟨login⟩, b1, s1, t⟩, ⟨⟨login⟩, b2, s2, t⟩] =
      [(login, ⟨t, s1⟩)] := by
  simp [processReview, recordLookup, recordSet, jsStrLt_irrefl]

/-- C4 witness: the tie rule at an `APPROVED` then `CHANGES_REQUESTED` tie. -/
theorem claim_C4_witness :
    List.foldl processReview [] [⟨⟨"A"⟩, "", .APPROVED, "t1"⟩,
        ⟨⟨"A"⟩, "", .CHANGES_REQUESTED, "t1"⟩] =
      [("A", ⟨"t1", .APPROVED⟩)] :=
  claim_C4_tie_first_wins "A" "" "" "t1" .APPROVED .CHANGES_REQUESTED rfl rfl

/-- C8: the orchestrator decision has exactly three outcome shapes; with
upstream decision `CHANGES_REQUESTED` it throws, and the outcome is one and
the same whatever the reviews and labels are (the threshold and the approval
count play no part); otherwise it fails exactly when the approval count is
below the resolved threshold and succeeds exactly when it is not below. -/
theorem claim_C8_run_outcomes :
    (∀ (reviews : List PullRequestReview) (labels : List PullRequestLabel)
        (labelFormat : String) (defaultReviews : JSNum),
      runDecision ⟨reviews, labels, .CHANGES_REQUESTED⟩ labelFormat
          defaultReviews =
        (.thrown "changes requested state", [])) ∧
    (∀ (pullRequest : PullRequestReviewsAndLabels) (labelFormat : String)
        (defaultReviews : JSNum),
      pullRequest.reviewDecision ≠ .CHANGES_REQUESTED →
        (((runDecision pullRequest labelFormat defaultReviews).1 =
            .failed "not enough approvals" ↔
          jsNumLt (.val (uniqueActiveApprovers pullRequest.reviews : ℚ))
            (requiredReviewThreshold pullRequest.labels labelFormat
              defaultReviews).1 = true) ∧
        ((runDecision pullRequest labelFormat defaultReviews).1 =
            .succeeded "received approvals" ↔
          jsNumLt (.val (uniqueActiveApprovers pullRequest.reviews : ℚ))
            (requiredReviewThreshold pullRequest.labels labelFormat
              defaultReviews).1 = false))) ∧
    (∀ (pullRequest : PullRequestReviewsAndLabels) (labelFormat : String)
        (defaultReviews : JSNum),
      (∃ msg, (runDecision pullRequest labelFormat defaultReviews).1 =
          .thrown msg) ∨
      (∃ msg, (runDecision pullRequest labelFormat defaultReviews).1 =
          .failed msg) ∨
      ∃ msg, (runDecision pullRequest labelFormat defaultReviews).1 =
          .succeeded msg) := by
  refine ⟨fun _ _ _ _ => rfl, ?_, ?_⟩
  · intro pullRequest labelFormat defaultReviews hd
    cases hc : jsNumLt (.val (uniqueActiveApprovers pullRequest.reviews : ℚ))
        (requiredReviewThreshold pullRequest.labels labelFormat
          defaultReviews).1 <;>
      simp [runDecision, hd, hc]
  · intro pullRequest labelFormat defaultReviews
    by_cases hd : pullRequest.reviewDecision = .CHANGES_REQUESTED
    · exact Or.inl ⟨"changes requested state", by simp [runDecision, hd]⟩
    · cases hc : jsNumLt
          (.val (uniqueActiveApprovers pullRequest.reviews : ℚ))
          (requiredReviewThreshold pullRequest.labels labelFormat
            defaultReviews).1
      · exact Or.inr (Or.inr ⟨"received approvals",
          by simp [runDecision, hd, hc]⟩)
      · exact Or.inr (Or.inl ⟨"not enough approvals",
          by simp [runDecision, hd, hc]⟩)

/-- C8 witness: the fail/succeed dichotomy at a pull request with no
reviews, no labels and default 0 (whose decision is `REVIEW_REQUIRED`). -/
theorem claim_C8_witness :
    ((runDecision ⟨[], [], .REVIEW_REQUIRED⟩ "required-reviews/"
        (.val 0)).1 = .failed "not enough approvals" ↔
      jsNumLt (.val ((uniqueActiveApprovers [] : Nat) : ℚ))
        (requiredReviewThreshold [] "required-reviews/" (.val 0)).1 =
        true) ∧
    ((runDecision ⟨[], [], .REVIEW_REQUIRED⟩ "required-reviews/"
        (.val 0)).1 = .succeeded "received approvals" ↔
      jsNumLt (.val ((uniqueActiveApprovers [] : Nat) : ℚ))
        (requiredReviewThreshold [] "required-reviews/" (.val 0)).1 =
        false) :=
  claim_C8_run_outcomes.2.1 ⟨[], [], .REVIEW_REQUIRED⟩ "required-reviews/"
    (.val 0) (by decide)

end PRReviewThreshold
